import Mathlib

/-!
Verification of the QR inventory scan pipeline.

The development shallowly embeds the scan-ingestion code:

* `Qr` — `src/lib/qr.ts` (`extractCodeId`, `isValidCodeId`, `generateQRUrl`).
* `ScanApi` — the normalizer defined inside `src/app/api/qr/scan/route.ts`
  (`extractCodeId` / `isValidCodeId` with the stricter 6–12 bound) and the
  find-or-create portion of its `POST` handler.
* `ScanEventsApi` — the find-or-create portion of `POST /api/scan-events`
  and the listing logic of `GET /api/scan-events`.
* `CodesApi` — `GET /api/codes/:codeId`, the public lookup.

Strings are embedded as `List Char`.  JavaScript string operations are
translated on their ASCII fragment (`trim`, `toUpperCase`, `split`,
`startsWith`), which covers every payload the validated identifiers and the
claims range over.  `new URL` is modelled for absolute `http`/`https` URLs:
scheme, host up to the first delimiter, pathname, and the query string with
`searchParams.get` as first-match lookup; payloads without an `http`/`https`
prefix are modelled as parse failures, which is faithful for every payload
that contains no scheme separator (JavaScript `new URL` throws on those).
The database is embedded as lists of rows; the `codes` table carries its
primary-key constraint (`SUPABASE_SETUP.md`: `id TEXT PRIMARY KEY`) as
"insert fails when a row with the same id is present at insert time".
-/

deriving instance DecidableEq for Except

/-- ASCII fragment of the whitespace class used by `String.prototype.trim`. -/
def isWsChar (c : Char) : Bool :=
  c = ' ' || c = '\t' || c = '\n' || c = '\r'

/-- Model of `String.prototype.trim`: drop whitespace at both ends. -/
def trimList (s : List Char) : List Char :=
  ((s.dropWhile isWsChar).reverse.dropWhile isWsChar).reverse

/-- ASCII fragment of `String.prototype.toUpperCase` on one character. -/
def upChar (c : Char) : Char :=
  if 'a' ≤ c ∧ c ≤ 'z' then Char.ofNat (c.toNat - 32) else c

/-- ASCII fragment of `String.prototype.toUpperCase`. -/
def upperList (s : List Char) : List Char :=
  s.map upChar

/-- One character of the uppercase-alphanumeric class `[A-Z0-9]`. -/
def isUpperAlnumChar (c : Char) : Bool :=
  ('A' ≤ c && c ≤ 'Z') || ('0' ≤ c && c ≤ '9')

/-- Model of `/^[A-Z0-9]+$/.test`. -/
def codeIdRegexTest (s : List Char) : Bool :=
  !s.isEmpty && s.all isUpperAlnumChar

/-- Model of `String.prototype.split` with a one-character separator. -/
def splitSep (sep : Char) : List Char → List (List Char)
  | [] => [[]]
  | c :: cs =>
    if c = sep then [] :: splitSep sep cs
    else
      match splitSep sep cs with
      | [] => [[c]]
      | s :: ss => (c :: s) :: ss

namespace Qr

/-- Rejection reasons of `extractCodeId` in `src/lib/qr.ts`, one per thrown
`Error` message. -/
inductive QrError where
  | emptyPayload
  | emptyAfterTrim
  | noPathSegments
  | urlParseError
  | tooShort
  | tooLong
  | invalidChars
deriving DecidableEq, Repr

/-- `CODE_ID_MIN_LENGTH` in `src/lib/qr.ts`. -/
def CODE_ID_MIN_LENGTH : Nat := 6

/-- `CODE_ID_MAX_LENGTH` in `src/lib/qr.ts`. -/
def CODE_ID_MAX_LENGTH : Nat := 32

/-- The three validation checks at the end of `extractCodeId`
(`src/lib/qr.ts` lines 80–98), in source order. -/
def validateCodeId (codeId : List Char) : Except QrError (List Char) :=
  if codeId.length < CODE_ID_MIN_LENGTH then .error .tooShort
  else if codeId.length > CODE_ID_MAX_LENGTH then .error .tooLong
  else if !codeIdRegexTest codeId then .error .invalidChars
  else .ok codeId

/-- The observable part of a parsed WHATWG URL used by the sources:
`url.pathname` and the raw query string behind `url.searchParams`. -/
structure ParsedUrl where
  pathname : List Char
  query : List Char
deriving DecidableEq, Repr

/-- Does the trimmed payload start with `http://` or `https://`
(the check on line 44 of `src/lib/qr.ts`)? -/
def isHttpPrefixed (s : List Char) : Bool :=
  List.isPrefixOf ("http://".data) s || List.isPrefixOf ("https://".data) s

/-- A character that may belong to the host part: everything up to the
first `/`, `?` or `#`. -/
def hostChar (c : Char) : Bool :=
  !(c = '/' || c = '?' || c = '#')

/-- Split everything after the host into pathname (`/` when the path part is
empty, as `url.pathname` reports it) and the query string: drop a fragment
behind `#`, cut the path at `?`, and keep what follows the `?`. -/
def parseAfterHost (afterHost : List Char) : ParsedUrl :=
  ⟨if ((afterHost.takeWhile (fun c => c ≠ '#')).takeWhile (fun c => c ≠ '?')).isEmpty
      then ['/']
      else (afterHost.takeWhile (fun c => c ≠ '#')).takeWhile (fun c => c ≠ '?'),
    ((afterHost.takeWhile (fun c => c ≠ '#')).dropWhile (fun c => c ≠ '?')).drop 1⟩

/-- Parse host and remainder of the part after the scheme; an empty host is
a parse failure (WHATWG `new URL` throws for special schemes). -/
def parseHostAndRest (rest : List Char) : Option ParsedUrl :=
  if (rest.takeWhile hostChar).isEmpty then none
  else some (parseAfterHost (rest.dropWhile hostChar))

/-- Model of `new URL` restricted to absolute `http`/`https` URLs: strip the
scheme, read the host up to the first `/`, `?` or `#`, then split the
remainder into pathname and query string. -/
def parseHttpUrl (s : List Char) : Option ParsedUrl :=
  if List.isPrefixOf ("https://".data) s then parseHostAndRest (s.drop 8)
  else if List.isPrefixOf ("http://".data) s then parseHostAndRest (s.drop 7)
  else none

/-- The key/value pairs of a query string, as `URLSearchParams` exposes them:
split on `&`, drop empty parts, split each part at the first `=`. -/
def queryPairs (q : List Char) : List (List Char × List Char) :=
  ((splitSep '&' q).filter (fun p => !p.isEmpty)).map
    (fun p => (p.takeWhile (fun c => c ≠ '='), (p.dropWhile (fun c => c ≠ '=')).drop 1))

/-- Model of `url.searchParams.get(name)`: value of the first pair with the
given name, `none` when absent. -/
def getSearchParam (url : ParsedUrl) (name : List Char) : Option (List Char) :=
  ((queryPairs url.query).find? (fun pr => pr.1 == name)).map Prod.snd

/-- `url.pathname.split('/').filter((segment) => segment.length > 0)`
(lines 54–56 of `src/lib/qr.ts`). -/
def pathSegments (url : ParsedUrl) : List (List Char) :=
  (splitSep '/' url.pathname).filter (fun s => !s.isEmpty)

/-- The candidate taken from the last non-empty path segment
(lines 58–64 of `src/lib/qr.ts`). -/
def pathCandidate (url : ParsedUrl) : Except QrError (List Char) :=
  match (pathSegments url).getLast? with
  | some s => .ok (upperList (trimList s))
  | none => .error .noPathSegments

/-- Candidate extraction of `extractCodeId` on the already-trimmed payload
(lines 41–77 of `src/lib/qr.ts`): the URL branch prefers a truthy `code`
query parameter, else the last path segment; a non-URL payload is the
candidate itself, uppercased. -/
def extractCandidate (trimmed : List Char) : Except QrError (List Char) :=
  if isHttpPrefixed trimmed then
    match parseHttpUrl trimmed with
    | none => .error .urlParseError
    | some url =>
      match getSearchParam url ("code".data) with
      | some q =>
        if !q.isEmpty then .ok (upperList (trimList q))
        else pathCandidate url
      | none => pathCandidate url
  else .ok (upperList trimmed)

/-- `extractCodeId` of `src/lib/qr.ts`: reject an empty payload, trim,
extract a candidate, then validate it. -/
def extractCodeId (raw : List Char) : Except QrError (List Char) :=
  if raw.isEmpty then .error .emptyPayload
  else if (trimList raw).isEmpty then .error .emptyAfterTrim
  else
    match extractCandidate (trimList raw) with
    | .error e => .error e
    | .ok cand => validateCodeId cand

/-- `isValidCodeId` of `src/lib/qr.ts`: does `extractCodeId` succeed? -/
def isValidCodeId (codeId : List Char) : Bool :=
  (extractCodeId codeId).toBool

/-- Default `baseUrl` of `generateQRUrl`. -/
def defaultBaseUrl : List Char := "https://app.example.com".data

/-- `generateQRUrl` of `src/lib/qr.ts`: validate, then build
the URL `baseUrl + "/s/" + validatedId`. -/
def generateQRUrl (codeId : List Char) (baseUrl : List Char) : Except QrError (List Char) :=
  (extractCodeId codeId).map (fun validatedId => baseUrl ++ "/s/".data ++ validatedId)

end Qr

namespace ScanApi

/-- `isValidCodeId` defined inside the `/api/qr/scan` route
(`page.tsx` lines 549–552): uppercase, then `/^[A-Z0-9]{6,12}$/.test`. -/
def isValidCodeId (str : List Char) : Bool :=
  decide (6 ≤ (upperList str).length) && decide ((upperList str).length ≤ 12)
    && (upperList str).all isUpperAlnumChar

/-- Model of the route's bare `new URL(trimmed)` attempt: succeeds exactly on
absolute `http`/`https` URLs.  Faithful for those and for every payload
without a scheme separator (JavaScript throws on them); payloads with other
schemes are modelled as parse failures. -/
def tryParseUrl (s : List Char) : Option Qr.ParsedUrl :=
  if Qr.isHttpPrefixed s then Qr.parseHttpUrl s else none

/-- The last-path-segment fallback of the route normalizer
(`page.tsx` lines 524–531). -/
def fromLastSegment (url : Qr.ParsedUrl) : Option (List Char) :=
  match (Qr.pathSegments url).getLast? with
  | some s => if isValidCodeId s then some (upperList s) else none
  | none => none

/-- The `try` block of the route normalizer (`page.tsx` lines 514–534):
a valid truthy `code` query parameter, else a valid last path segment,
`none` when the URL attempt produces no identifier. -/
def fromUrl (trimmed : List Char) : Option (List Char) :=
  match tryParseUrl trimmed with
  | none => none
  | some url =>
    match Qr.getSearchParam url ("code".data) with
    | some cp =>
      if !cp.isEmpty && isValidCodeId cp then some (upperList cp)
      else fromLastSegment url
    | none => fromLastSegment url

/-- `extractCodeId` defined inside the `/api/qr/scan` route
(`page.tsx` lines 511–542): try the URL's `code` query parameter, then the
last path segment, then the whole trimmed payload; `none` when no candidate
passes `isValidCodeId`. -/
def extractCodeId (raw : List Char) : Option (List Char) :=
  match fromUrl (trimList raw) with
  | some c => some c
  | none =>
    if isValidCodeId (trimList raw) then some (upperList (trimList raw)) else none

end ScanApi

/-- A row of the `codes` table (`SUPABASE_SETUP.md`): `id` is the primary
key, so at most one row per id durably exists. -/
structure CodeRow where
  id : List Char
  systemAcronym : List Char
  size : List Char
  year : Int
  ownerUserId : List Char
  createdAt : Nat
deriving DecidableEq, Repr

/-- The `codes` table. -/
abbrev CodesTable := List CodeRow

/-- Outcome of the find-or-create portion of a scan-record handler: either a
code row together with the table after the step, or an HTTP error response
(status and message). -/
inductive ResolveOutcome where
  | okRow (row : CodeRow) (table : CodesTable)
  | dbError (status : Nat) (msg : List Char)
deriving DecidableEq, Repr

/-- Model of an insert into `codes` under the primary-key constraint: fail
when a row with the same id is present at insert time. -/
def insertCode (table : CodesTable) (row : CodeRow) : Option CodesTable :=
  if table.any (fun r => r.id == row.id) then none else some (table ++ [row])

namespace ScanApi

/-- Steps 7 of `POST /api/qr/scan` (`page.tsx` lines 616–667): fetch the
code by `id` AND `owner_user_id`; reuse it when found, else insert a new row
and answer 500 on any insert error.  `tableAtFetch` is the table the lookup
reads; `tableAtInsert` the table at insert time (a concurrent writer may
have inserted between the two). -/
def resolveCode (tableAtFetch tableAtInsert : CodesTable)
    (codeId userId systemAcronym size : List Char) (year : Int) (now : Nat) :
    ResolveOutcome :=
  match tableAtFetch.find? (fun r => r.id == codeId && r.ownerUserId == userId) with
  | some existingCode => .okRow existingCode tableAtInsert
  | none =>
    let newCode : CodeRow := ⟨codeId, systemAcronym, size, year, userId, now⟩
    match insertCode tableAtInsert newCode with
    | some table => .okRow newCode table
    | none => .dbError 500 ("Database error while creating code record".data)

end ScanApi

namespace ScanEventsApi

/-- The find-or-create portion of `POST /api/scan-events`
(`page.tsx` lines 778–823): fetch the code by `id` alone; reuse it when
found, else insert a new row with the fixed defaults and answer 500 on any
insert error. -/
def resolveCode (tableAtFetch tableAtInsert : CodesTable)
    (codeId userId : List Char) (currentYear : Int) (now : Nat) : ResolveOutcome :=
  match tableAtFetch.find? (fun r => r.id == codeId) with
  | some existingCode => .okRow existingCode tableAtInsert
  | none =>
    let newCode : CodeRow :=
      ⟨codeId, "TMGS".data, "unspecified".data, currentYear, userId, now⟩
    match insertCode tableAtInsert newCode with
    | some table => .okRow newCode table
    | none => .dbError 500 ("Database error while creating code".data)

/-- A row of the `scan_events` table (`SUPABASE_SETUP.md`). -/
structure ScanEventRow where
  id : List Char
  codeId : List Char
  scannedByUserId : List Char
  scannedAt : Nat
  rawPayload : List Char
deriving DecidableEq, Repr

/-- The joined code object produced by the `GET /api/scan-events` transform
(`page.tsx` lines 939–948): public code fields from the join; the transform
fills `owner_user_id` with the caller and falls back to the event's
`scanned_at` for `created_at` (the select fetches no `created_at`). -/
structure JoinedCode where
  id : List Char
  systemAcronym : List Char
  size : List Char
  year : Int
  ownerUserId : List Char
  createdAt : Nat
deriving DecidableEq, Repr

/-- One element of the `GET /api/scan-events` response
(`page.tsx` lines 932–950). -/
structure ListedEvent where
  id : List Char
  codeId : List Char
  scannedAt : Nat
  rawPayload : List Char
  scannedByUserId : List Char
  code : Option JoinedCode
deriving DecidableEq, Repr

/-- The Supabase relationship join `codes ( id, system_acronym, size, year )`
on `scan_events.code_id`, followed by the route's transform. -/
def transformEvent (codes : CodesTable) (userId : List Char)
    (e : ScanEventRow) : ListedEvent :=
  { id := e.id
    codeId := e.codeId
    scannedAt := e.scannedAt
    rawPayload := e.rawPayload
    scannedByUserId := userId
    code := (codes.find? (fun c => c.id == e.codeId)).map
      (fun c => ⟨c.id, c.systemAcronym, c.size, c.year, userId, e.scannedAt⟩) }

/-- Insert an event into a list sorted by descending `scanned_at`. -/
def insertDesc (e : ScanEventRow) : List ScanEventRow → List ScanEventRow
  | [] => [e]
  | x :: xs => if e.scannedAt ≤ x.scannedAt then x :: insertDesc e xs else e :: x :: xs

/-- Model of `.order('scanned_at', ascending false)`. -/
def sortDesc : List ScanEventRow → List ScanEventRow
  | [] => []
  | x :: xs => insertDesc x (sortDesc xs)

/-- `GET /api/scan-events` (`page.tsx` lines 889–952): filter the caller's
events, newest first, capped at 50, each joined with its code. -/
def listScanEvents (events : List ScanEventRow) (codes : CodesTable)
    (userId : List Char) : List ListedEvent :=
  (((sortDesc (events.filter (fun e => e.scannedByUserId == userId))).take 50).map
    (transformEvent codes userId))

end ScanEventsApi

namespace CodesApi

/-- Response of `GET /api/codes/:codeId` (`page.tsx` lines 973–1020):
either exactly the five non-sensitive fields of the row, or an HTTP
error status. -/
inductive LookupResult where
  | ok (id systemLabel size : List Char) (year : Int) (created : Nat)
  | badRequest
  | notFound
deriving DecidableEq, Repr

/-- `GET /api/codes/:codeId`: no caller identity is consulted; reject an
empty id (falsy check), look the code up by the uppercased path parameter
with no user filter, answer 404 when absent, else return only
`id`, `system`, `size`, `year`, `created`. -/
def lookupCode (table : CodesTable) (codeId : List Char) : LookupResult :=
  if codeId.isEmpty then .badRequest
  else
    match table.find? (fun r => r.id == upperList codeId) with
    | some code => .ok code.id code.systemAcronym code.size code.year code.createdAt
    | none => .notFound

end CodesApi


section Helpers

/-- A character whose uppercased form lies in `[A-Z0-9]`; the property the
canonical-identifier claims quantify over. -/
def isAlnumAnyCase (c : Char) : Bool :=
  isUpperAlnumChar (upChar c)

theorem upChar_eq_self_of_upperAlnum {c : Char} (h : isUpperAlnumChar c = true) :
    upChar c = c := by
  unfold isUpperAlnumChar at h
  unfold upChar
  rw [if_neg]
  rintro ⟨h1, h2⟩
  simp only [Bool.or_eq_true, Bool.and_eq_true, decide_eq_true_eq] at h
  have k1 : (97 : Nat) ≤ c.val.toNat := h1
  rcases h with ⟨ha, hb⟩ | ⟨ha, hb⟩
  · have k2 : c.val.toNat ≤ 90 := hb
    omega
  · have k2 : c.val.toNat ≤ 57 := hb
    omega

theorem not_wsChar_of_upperAlnum {c : Char} (h : isUpperAlnumChar c = true) :
    isWsChar c = false := by
  unfold isUpperAlnumChar at h
  unfold isWsChar
  simp only [Bool.or_eq_true, Bool.and_eq_true, decide_eq_true_eq] at h
  simp only [Bool.or_eq_false_iff, decide_eq_false_iff_not]
  refine ⟨⟨⟨?_, ?_⟩, ?_⟩, ?_⟩ <;> rintro rfl <;> revert h <;> decide

theorem dropWhile_eq_self_of_all {p : Char → Bool} {s : List Char}
    (h : ∀ c ∈ s, p c = false) : s.dropWhile p = s := by
  cases s with
  | nil => rfl
  | cons a l =>
    rw [List.dropWhile_cons, if_neg]
    simp [h a (List.mem_cons_self a l)]

theorem trimList_eq_self_of_all {s : List Char}
    (h : ∀ c ∈ s, isWsChar c = false) : trimList s = s := by
  unfold trimList
  rw [dropWhile_eq_self_of_all h, dropWhile_eq_self_of_all, List.reverse_reverse]
  intro c hc
  exact h c (List.mem_reverse.mp hc)

theorem upperList_eq_self_of_all {s : List Char}
    (h : ∀ c ∈ s, isUpperAlnumChar c = true) : upperList s = s := by
  unfold upperList
  conv_rhs => rw [← List.map_id s]
  exact List.map_congr_left (fun c hc => upChar_eq_self_of_upperAlnum (h c hc))

theorem not_isHttpPrefixed_of_all_alnum {s : List Char}
    (h : ∀ c ∈ s, isAlnumAnyCase c = true) : Qr.isHttpPrefixed s = false := by
  unfold Qr.isHttpPrefixed
  rw [Bool.or_eq_false_iff]
  constructor <;> {
    rw [← Bool.not_eq_true]
    intro hp
    rw [List.isPrefixOf_iff_prefix] at hp
    have hcolon : (':' : Char) ∈ s := hp.subset (by decide)
    have := h ':' hcolon
    revert this
    decide
  }

theorem validateCodeId_ok {s c : List Char} (h : Qr.validateCodeId s = .ok c) :
    c = s ∧ 6 ≤ s.length ∧ s.length ≤ 32 ∧ codeIdRegexTest s = true := by
  unfold Qr.validateCodeId at h
  split_ifs at h with h1 h2 h3
  · simp only [Qr.CODE_ID_MIN_LENGTH, not_lt] at h1
    simp only [Qr.CODE_ID_MAX_LENGTH, not_lt] at h2
    simp only [Bool.not_eq_true', Bool.not_eq_false] at h3
    cases h
    exact ⟨rfl, h1, h2, h3⟩

theorem validateCodeId_ok_of_bounds {s : List Char} (h6 : 6 ≤ s.length)
    (h32 : s.length ≤ 32) (hall : s.all isUpperAlnumChar = true) :
    Qr.validateCodeId s = .ok s := by
  have hne : s ≠ [] := by
    intro hs; rw [hs] at h6; simp at h6
  have hre : codeIdRegexTest s = true := by
    cases s with
    | nil => cases hne rfl
    | cons a l => simpa [codeIdRegexTest] using hall
  unfold Qr.validateCodeId
  rw [if_neg (by simp [Qr.CODE_ID_MIN_LENGTH]; omega),
    if_neg (by simp [Qr.CODE_ID_MAX_LENGTH]; omega),
    if_neg (by simp [hre])]

/-- Everything `Qr.extractCodeId` accepts is canonical: uppercase
alphanumeric within the 6–32 bounds. -/
theorem extractCodeId_ok_canonical {raw c : List Char}
    (h : Qr.extractCodeId raw = .ok c) :
    6 ≤ c.length ∧ c.length ≤ 32 ∧ c.all isUpperAlnumChar = true := by
  unfold Qr.extractCodeId at h
  split_ifs at h
  cases hcand : Qr.extractCandidate (trimList raw) with
  | error e => rw [hcand] at h; cases h
  | ok cand =>
    rw [hcand] at h
    obtain ⟨rfl, h6, h32, hre⟩ := validateCodeId_ok h
    unfold codeIdRegexTest at hre
    simp only [Bool.and_eq_true] at hre
    exact ⟨h6, h32, hre.2⟩

/-- A canonical identifier is a fixed point of `Qr.extractCodeId`. -/
theorem extractCodeId_canonical_fixed {c : List Char} (h6 : 6 ≤ c.length)
    (h32 : c.length ≤ 32) (hall : c.all isUpperAlnumChar = true) :
    Qr.extractCodeId c = .ok c := by
  have hallm : ∀ x ∈ c, isUpperAlnumChar x = true := List.all_eq_true.mp hall
  have hne : c ≠ [] := by
    intro hc; rw [hc] at h6; simp at h6
  have htrim : trimList c = c :=
    trimList_eq_self_of_all (fun x hx => not_wsChar_of_upperAlnum (hallm x hx))
  unfold Qr.extractCodeId
  rw [if_neg (by simpa using hne)]
  simp only [htrim]
  rw [if_neg (by simpa using hne)]
  unfold Qr.extractCandidate
  rw [if_neg]
  · rw [upperList_eq_self_of_all hallm]
    exact validateCodeId_ok_of_bounds h6 h32 hall
  · rw [not_isHttpPrefixed_of_all_alnum]
    · simp
    · intro x hx
      unfold isAlnumAnyCase
      rw [upChar_eq_self_of_upperAlnum (hallm x hx)]
      exact hallm x hx

theorem dropWhile_cons_false {p : Char → Bool} {a : Char} {l : List Char}
    (h : p a = false) : (a :: l).dropWhile p = a :: l := by
  rw [List.dropWhile_cons, if_neg (by simp [h])]

theorem takeWhile_eq_self_of_all {p : Char → Bool} {l : List Char}
    (h : ∀ x ∈ l, p x = true) : l.takeWhile p = l := by
  induction l with
  | nil => rfl
  | cons a t ih =>
    rw [List.takeWhile_cons, if_pos (h a (List.mem_cons_self a t))]
    rw [ih (fun x hx => h x (List.mem_cons_of_mem a hx))]

theorem dropWhile_eq_nil_of_all {p : Char → Bool} {l : List Char}
    (h : ∀ x ∈ l, p x = true) : l.dropWhile p = [] := by
  induction l with
  | nil => rfl
  | cons a t ih =>
    rw [List.dropWhile_cons, if_pos (h a (List.mem_cons_self a t))]
    exact ih (fun x hx => h x (List.mem_cons_of_mem a hx))

theorem splitSep_of_not_mem {sep : Char} {l : List Char} (h : sep ∉ l) :
    splitSep sep l = [l] := by
  induction l with
  | nil => rfl
  | cons a t ih =>
    unfold splitSep
    rw [if_neg (fun he => h (by rw [← he]; exact List.mem_cons_self a t))]
    rw [ih (fun hm => h (List.mem_cons_of_mem a hm))]

/-- The URL built by `generateQRUrl` round-trips: parsing
`https://app.example.com/s/` followed by a canonical identifier recovers
exactly that identifier. -/
theorem extractCodeId_of_generated_url {c : List Char} (h6 : 6 ≤ c.length)
    (h32 : c.length ≤ 32) (hall : c.all isUpperAlnumChar = true) :
    Qr.extractCodeId ("https://app.example.com/s/".data ++ c) = .ok c := by
  have hallm : ∀ x ∈ c, isUpperAlnumChar x = true := List.all_eq_true.mp hall
  have hcne : c ≠ [] := by
    intro hc; rw [hc] at h6; simp at h6
  have hcEmpty : c.isEmpty = false := by
    cases c with
    | nil => exact absurd rfl hcne
    | cons a t => rfl
  have hconsL : ("https://app.example.com/s/".data ++ c : List Char)
      = 'h' :: ("ttps://app.example.com/s/".data ++ c) := rfl
  have hEmpty : (("https://app.example.com/s/".data ++ c : List Char)).isEmpty
      = false := by
    rw [hconsL]; rfl
  have hfront : ("https://app.example.com/s/".data ++ c).dropWhile isWsChar
      = "https://app.example.com/s/".data ++ c := by
    rw [hconsL]; exact dropWhile_cons_false (by decide)
  obtain ⟨a, l', hrev, ha⟩ :
      ∃ a l', c.reverse = a :: l' ∧ isWsChar a = false := by
    cases hr : c.reverse with
    | nil => exact absurd (by simpa using congrArg List.reverse hr) hcne
    | cons a l' =>
      refine ⟨a, l', rfl, not_wsChar_of_upperAlnum (hallm a ?_)⟩
      rw [← List.mem_reverse, hr]
      exact List.mem_cons_self a l'
  have hback : (("https://app.example.com/s/".data ++ c).reverse).dropWhile isWsChar
      = ("https://app.example.com/s/".data ++ c).reverse := by
    rw [List.reverse_append, hrev, List.cons_append]
    exact dropWhile_cons_false ha
  have htrim : trimList ("https://app.example.com/s/".data ++ c)
      = "https://app.example.com/s/".data ++ c := by
    unfold trimList
    rw [hfront, hback, List.reverse_reverse]
  have hpre8 : List.isPrefixOf ("https://".data)
      ("https://app.example.com/s/".data ++ c) = true := by
    simp only [List.isPrefixOf_iff_prefix]
    exact ⟨"app.example.com/s/".data ++ c, by rw [← List.append_assoc]; rfl⟩
  have hpre : Qr.isHttpPrefixed ("https://app.example.com/s/".data ++ c) = true := by
    unfold Qr.isHttpPrefixed
    rw [hpre8, Bool.or_true]
  have hnohash : ∀ x ∈ ("/s/".data ++ c), (x = '#') = False := by
    intro x hx
    simp only [eq_iff_iff, iff_false]
    rcases List.mem_append.mp hx with hx | hx
    · rcases (by simpa using hx : x = '/' ∨ x = 's' ∨ x = '/') with rfl | rfl | rfl <;>
        decide
    · intro he
      have := hallm x hx
      rw [he] at this
      exact absurd this (by decide)
  have hnoq : ∀ x ∈ ("/s/".data ++ c), (x = '?') = False := by
    intro x hx
    simp only [eq_iff_iff, iff_false]
    rcases List.mem_append.mp hx with hx | hx
    · rcases (by simpa using hx : x = '/' ∨ x = 's' ∨ x = '/') with rfl | rfl | rfl <;>
        decide
    · intro he
      have := hallm x hx
      rw [he] at this
      exact absurd this (by decide)
  have htk1 : ("/s/".data ++ c).takeWhile (fun x => x ≠ '#') = "/s/".data ++ c :=
    takeWhile_eq_self_of_all (fun x hx => by simp [hnohash x hx])
  have htk2 : ("/s/".data ++ c).takeWhile (fun x => x ≠ '?') = "/s/".data ++ c :=
    takeWhile_eq_self_of_all (fun x hx => by simp [hnoq x hx])
  have hdw : ("/s/".data ++ c).dropWhile (fun x => x ≠ '?') = [] :=
    dropWhile_eq_nil_of_all (fun x hx => by simp [hnoq x hx])
  have hpcEmpty : (("/s/".data ++ c : List Char)).isEmpty = false := rfl
  have hafter : Qr.parseAfterHost ("/s/".data ++ c)
      = ⟨"/s/".data ++ c, []⟩ := by
    unfold Qr.parseAfterHost
    rw [htk1, htk2, hdw, if_neg (by simp [hpcEmpty])]
    rfl
  have hparse : Qr.parseHttpUrl ("https://app.example.com/s/".data ++ c)
      = some ⟨"/s/".data ++ c, []⟩ := by
    unfold Qr.parseHttpUrl
    rw [if_pos hpre8]
    rw [show (("https://app.example.com/s/".data ++ c : List Char)).drop 8
        = "app.example.com/s/".data ++ c from rfl]
    unfold Qr.parseHostAndRest
    rw [show ("app.example.com/s/".data ++ c : List Char).takeWhile Qr.hostChar
        = "app.example.com".data from rfl]
    rw [show ("app.example.com/s/".data ++ c : List Char).dropWhile Qr.hostChar
        = "/s/".data ++ c from rfl]
    rw [if_neg (by decide), hafter]
  have hslash : '/' ∉ c := by
    intro hm
    have := hallm '/' hm
    exact absurd this (by decide)
  have hsegsplit : splitSep '/' ('/' :: 's' :: '/' :: c)
      = [] :: ['s'] :: splitSep '/' c := rfl
  have hsegs : Qr.pathSegments ⟨"/s/".data ++ c, []⟩ = [['s'], c] := by
    show (splitSep '/' ("/s/".data ++ c)).filter (fun s => !s.isEmpty) = [['s'], c]
    rw [show ("/s/".data ++ c : List Char) = '/' :: 's' :: '/' :: c from rfl]
    rw [hsegsplit, splitSep_of_not_mem hslash]
    simp [List.filter_cons, hcEmpty]
  have hq : Qr.getSearchParam ⟨"/s/".data ++ c, []⟩ ("code".data) = none := rfl
  have htrimc : trimList c = c :=
    trimList_eq_self_of_all (fun x hx => not_wsChar_of_upperAlnum (hallm x hx))
  have hupper : upperList c = c := upperList_eq_self_of_all hallm
  have hcand : Qr.extractCandidate ("https://app.example.com/s/".data ++ c)
      = .ok c := by
    have hlast : ([['s'], c] : List (List Char)).getLast? = some c := rfl
    unfold Qr.extractCandidate
    rw [if_pos hpre]
    simp only [hparse, hq, Qr.pathCandidate, hsegs, hlast]
    rw [htrimc, hupper]
  unfold Qr.extractCodeId
  rw [if_neg (by simp [hEmpty]), htrim, if_neg (by simp [hEmpty])]
  simp only [hcand]
  exact validateCodeId_ok_of_bounds h6 h32 hall

end Helpers

/-- C4, counterexample: `extractCodeId "AB-12"` does not reject with the
invalid-characters reason; the length check fires first (5 < 6) and the
payload is rejected as too short. -/
theorem claim_C4_counterexample :
    Qr.extractCodeId ("AB-12".data) ≠ .error .invalidChars
    ∧ Qr.extractCodeId ("AB-12".data) = .error .tooShort := by
  decide

/-- C4, amended: `normalize("AB-12")` rejects, but as too short (its length 5
is below the minimum 6; the length checks precede the character check); a
payload of valid length containing `-`, such as `"AB-12X"`, is the one
rejected for invalid characters. -/
theorem claim_C4_amended_reject_reason :
    Qr.extractCodeId ("AB-12".data) = .error .tooShort
    ∧ Qr.extractCodeId ("AB-12X".data) = .error .invalidChars := by
  decide

/-- C1: at the failing input — the `codes` lookup finds nothing and a row
with the same id is present by insert time (a concurrent writer won the
race) — both scan-record handlers surface the duplicate-insert failure as a
500 error response instead of re-fetching the winning row: neither handler
has a reconciliation branch (`page.tsx` lines 655–664 and 814–820 answer
500 on any insert error). -/
theorem claim_C1_duplicate_insert_surfaced_as_500 :
    ScanEventsApi.resolveCode []
        [⟨"A6F3HW7L".data, "TMGS".data, "unspecified".data, 2025, "u1".data, 10⟩]
        ("A6F3HW7L".data) ("u2".data) 2025 11
      = .dbError 500 ("Database error while creating code".data)
    ∧ ScanApi.resolveCode
        [⟨"A6F3HW7L".data, "TMGS".data, "unspecified".data, 2025, "u1".data, 10⟩]
        [⟨"A6F3HW7L".data, "TMGS".data, "unspecified".data, 2025, "u1".data, 10⟩]
        ("A6F3HW7L".data) ("u2".data) ("TMGS".data) ("unspecified".data) 2025 11
      = .dbError 500 ("Database error while creating code record".data) := by
  decide

/-- The concrete existing row used by the C3 counterexample. -/
def c3Row : CodeRow :=
  ⟨"A6F3HW7L".data, "TMGS".data, "unspecified".data, 2025, "u1".data, 10⟩

/-- C3, counterexample: via `POST /api/qr/scan` a *different* caller's scan
of an id whose Code row already exists does not return the stored row — the
owner-scoped lookup misses it, and the insert then collides with the
primary key, yielding a 500 error. -/
theorem claim_C3_counterexample :
    ScanApi.resolveCode [c3Row] [c3Row] ("A6F3HW7L".data) ("u2".data)
        ("TMGS".data) ("unspecified".data) 2025 11
      ≠ .okRow c3Row [c3Row]
    ∧ ScanApi.resolveCode [c3Row] [c3Row] ("A6F3HW7L".data) ("u2".data)
        ("TMGS".data) ("unspecified".data) 2025 11
      = .dbError 500 ("Database error while creating code record".data) := by
  decide

/-- C3, amended: when the resolve lookup finds an existing Code row —
any caller via `/api/scan-events`, the owning caller via `/api/qr/scan` —
the row is returned with every field unchanged and the `codes` table is left
untouched (resolve never issues an update); via `/api/qr/scan` a different
caller's lookup misses the owner-scoped fetch and the subsequent insert
fails instead of reusing the row. -/
theorem claim_C3_amended_reuse_without_update (tableAtFetch tableAtInsert : CodesTable)
    (r : CodeRow) (codeId userId sys sz : List Char) (yr : Int) (now : Nat) :
    (tableAtFetch.find? (fun x => x.id == codeId) = some r →
      ScanEventsApi.resolveCode tableAtFetch tableAtInsert codeId userId yr now
        = .okRow r tableAtInsert)
    ∧ (tableAtFetch.find? (fun x => x.id == codeId && x.ownerUserId == userId) = some r →
      ScanApi.resolveCode tableAtFetch tableAtInsert codeId userId sys sz yr now
        = .okRow r tableAtInsert) := by
  constructor
  · intro h
    unfold ScanEventsApi.resolveCode
    rw [h]
  · intro h
    unfold ScanApi.resolveCode
    rw [h]

/-- Witness for C3: a stored row is reused as-is by both routes when the
lookup finds it. -/
theorem claim_C3_witness :
    ScanEventsApi.resolveCode
        [⟨"B7G4JX9M".data, "TMGS".data, "M".data, 2024, "u1".data, 5⟩]
        [⟨"B7G4JX9M".data, "TMGS".data, "M".data, 2024, "u1".data, 5⟩]
        ("B7G4JX9M".data) ("u9".data) 2025 11
      = .okRow ⟨"B7G4JX9M".data, "TMGS".data, "M".data, 2024, "u1".data, 5⟩
          [⟨"B7G4JX9M".data, "TMGS".data, "M".data, 2024, "u1".data, 5⟩]
    ∧ ScanApi.resolveCode
        [⟨"B7G4JX9M".data, "TMGS".data, "M".data, 2024, "u1".data, 5⟩]
        [⟨"B7G4JX9M".data, "TMGS".data, "M".data, 2024, "u1".data, 5⟩]
        ("B7G4JX9M".data) ("u1".data) ("TMGS".data) ("S".data) 2025 11
      = .okRow ⟨"B7G4JX9M".data, "TMGS".data, "M".data, 2024, "u1".data, 5⟩
          [⟨"B7G4JX9M".data, "TMGS".data, "M".data, 2024, "u1".data, 5⟩] := by
  refine ⟨(claim_C3_amended_reuse_without_update _ _ _ _ ("u9".data)
      ("TMGS".data) ("S".data) 2025 11).1 (by decide),
    (claim_C3_amended_reuse_without_update _ _ _ _ ("u1".data)
      ("TMGS".data) ("S".data) 2025 11).2 (by decide)⟩

/-- C2, counterexample: on the plain 13-character payload
`"ABCDEFGHIJKLM"` the `lib/qr.ts` normalizer (6–32 bound) extracts the
identifier while the `/api/qr/scan` route normalizer (6–12 bound) rejects
it — the two ingestion entry points do not apply one validation bound
consistently. -/
theorem claim_C2_counterexample :
    Qr.extractCodeId ("ABCDEFGHIJKLM".data) = .ok ("ABCDEFGHIJKLM".data)
    ∧ ScanApi.extractCodeId ("ABCDEFGHIJKLM".data) = none := by
  decide

/-- C2, amended: the two normalizers agree on every plain payload within the
stricter shared bound — whenever the trimmed payload is alphanumeric (any
case) of length 6–12, both extract the same canonical uppercase identifier.
For plain alphanumeric payloads of length 13–32 the `lib/qr.ts` normalizer
accepts while the route normalizer rejects (see the counterexample), so
outside the shared bound the two entry points disagree. -/
theorem claim_C2_amended_shared_bound (raw : List Char)
    (hall : (trimList raw).all isAlnumAnyCase = true)
    (h6 : 6 ≤ (trimList raw).length) (h12 : (trimList raw).length ≤ 12) :
    Qr.extractCodeId raw = .ok (upperList (trimList raw))
    ∧ ScanApi.extractCodeId raw = some (upperList (trimList raw)) := by
  have hallm := List.all_eq_true.mp hall
  have hne : trimList raw ≠ [] := by
    intro h0; rw [h0] at h6; simp at h6
  have hrawne : raw.isEmpty = false := by
    cases hr : raw with
    | nil => exact absurd (by rw [hr]; rfl) hne
    | cons a l => rfl
  have htne : (trimList raw).isEmpty = false := by
    cases ht : trimList raw with
    | nil => exact absurd ht hne
    | cons a l => rfl
  have hpre : Qr.isHttpPrefixed (trimList raw) = false :=
    not_isHttpPrefixed_of_all_alnum hallm
  have hupall : (upperList (trimList raw)).all isUpperAlnumChar = true := by
    unfold upperList
    rw [List.all_map]
    exact hall
  have hulen : (upperList (trimList raw)).length = (trimList raw).length :=
    List.length_map _ _
  constructor
  · have hcand : Qr.extractCandidate (trimList raw)
        = .ok (upperList (trimList raw)) := by
      unfold Qr.extractCandidate
      rw [if_neg (by simp [hpre])]
    unfold Qr.extractCodeId
    rw [if_neg (by simp [hrawne]), if_neg (by simp [htne])]
    simp only [hcand]
    exact validateCodeId_ok_of_bounds (by omega) (by omega) hupall
  · have hfu : ScanApi.fromUrl (trimList raw) = none := by
      unfold ScanApi.fromUrl ScanApi.tryParseUrl
      rw [if_neg (by simp [hpre])]
    have hvalid : ScanApi.isValidCodeId (trimList raw) = true := by
      unfold ScanApi.isValidCodeId
      rw [Bool.and_eq_true, Bool.and_eq_true]
      refine ⟨⟨?_, ?_⟩, hupall⟩
      · rw [hulen]
        exact decide_eq_true h6
      · rw [hulen]
        exact decide_eq_true h12
    unfold ScanApi.extractCodeId
    simp only [hfu]
    rw [if_pos hvalid]

/-- Witness for C2's amended claim at the payload `"a6f3hw7l"`. -/
theorem claim_C2_witness :
    Qr.extractCodeId ("a6f3hw7l".data)
      = .ok (upperList (trimList ("a6f3hw7l".data)))
    ∧ ScanApi.extractCodeId ("a6f3hw7l".data)
      = some (upperList (trimList ("a6f3hw7l".data))) :=
  claim_C2_amended_shared_bound ("a6f3hw7l".data) (by decide) (by decide) (by decide)

/-- C5: on every payload that parses as an absolute `http`/`https` URL the
normalizer takes a present non-empty `code` query parameter as the
candidate in preference to the path; otherwise the last non-empty path
segment; and rejects when there is no such segment.  In particular
`normalize("https://host/s/B7G4JX9M") = "B7G4JX9M"` and
`normalize("https://host/path?code=c8h5ky0n") = "C8H5KY0N"`. -/
theorem claim_C5_url_candidate_policy :
    (∀ raw url q, raw.isEmpty = false → (trimList raw).isEmpty = false →
      Qr.isHttpPrefixed (trimList raw) = true →
      Qr.parseHttpUrl (trimList raw) = some url →
      Qr.getSearchParam url ("code".data) = some q → q.isEmpty = false →
      Qr.extractCodeId raw = Qr.validateCodeId (upperList (trimList q)))
    ∧ (∀ raw url s, raw.isEmpty = false → (trimList raw).isEmpty = false →
      Qr.isHttpPrefixed (trimList raw) = true →
      Qr.parseHttpUrl (trimList raw) = some url →
      (Qr.getSearchParam url ("code".data) = none
        ∨ Qr.getSearchParam url ("code".data) = some []) →
      (Qr.pathSegments url).getLast? = some s →
      Qr.extractCodeId raw = Qr.validateCodeId (upperList (trimList s)))
    ∧ (∀ raw url, raw.isEmpty = false → (trimList raw).isEmpty = false →
      Qr.isHttpPrefixed (trimList raw) = true →
      Qr.parseHttpUrl (trimList raw) = some url →
      (Qr.getSearchParam url ("code".data) = none
        ∨ Qr.getSearchParam url ("code".data) = some []) →
      (Qr.pathSegments url).getLast? = none →
      Qr.extractCodeId raw = .error .noPathSegments)
    ∧ Qr.extractCodeId ("https://host/s/B7G4JX9M".data) = .ok ("B7G4JX9M".data)
    ∧ Qr.extractCodeId ("https://host/path?code=c8h5ky0n".data)
        = .ok ("C8H5KY0N".data) := by
  refine ⟨?_, ?_, ?_, by decide, by decide⟩
  · intro raw url q h1 h2 h3 h4 h5 h6
    have hcand : Qr.extractCandidate (trimList raw)
        = .ok (upperList (trimList q)) := by
      unfold Qr.extractCandidate
      rw [if_pos h3]
      simp only [h4, h5, h6, Bool.not_false, if_true]
    unfold Qr.extractCodeId
    rw [if_neg (by simp [h1]), if_neg (by simp [h2])]
    simp only [hcand]
  · intro raw url s h1 h2 h3 h4 h5 h6
    have hcand : Qr.extractCandidate (trimList raw)
        = .ok (upperList (trimList s)) := by
      unfold Qr.extractCandidate
      rw [if_pos h3]
      rcases h5 with h5 | h5 <;>
        simp only [h4, h5, Qr.pathCandidate, h6, List.isEmpty_nil, Bool.not_true,
          Bool.false_eq_true, if_false]
    unfold Qr.extractCodeId
    rw [if_neg (by simp [h1]), if_neg (by simp [h2])]
    simp only [hcand]
  · intro raw url h1 h2 h3 h4 h5 h6
    have hcand : Qr.extractCandidate (trimList raw) = .error .noPathSegments := by
      unfold Qr.extractCandidate
      rw [if_pos h3]
      rcases h5 with h5 | h5 <;>
        simp only [h4, h5, Qr.pathCandidate, h6, List.isEmpty_nil, Bool.not_true,
          Bool.false_eq_true, if_false]
    unfold Qr.extractCodeId
    rw [if_neg (by simp [h1]), if_neg (by simp [h2])]
    simp only [hcand]

/-- Witness for C5's universal part at the concrete URL
`https://host/path?code=c8h5ky0n`. -/
theorem claim_C5_witness :
    Qr.parseHttpUrl (trimList ("https://host/path?code=c8h5ky0n".data))
      = some ⟨"/path".data, "code=c8h5ky0n".data⟩
    ∧ Qr.extractCodeId ("https://host/path?code=c8h5ky0n".data)
      = Qr.validateCodeId (upperList (trimList ("c8h5ky0n".data))) :=
  ⟨by decide,
    claim_C5_url_candidate_policy.1 ("https://host/path?code=c8h5ky0n".data)
      ⟨"/path".data, "code=c8h5ky0n".data⟩ ("c8h5ky0n".data)
      (by decide) (by decide) (by decide) (by decide) (by decide) (by decide)⟩

/-- C8: `normalize` is idempotent on accepted identifiers — whenever
`extractCodeId x` succeeds with `c`, running it again on `c` succeeds and
returns `c` unchanged. -/
theorem claim_C8_normalize_idempotent (x c : List Char)
    (h : Qr.extractCodeId x = .ok c) : Qr.extractCodeId c = .ok c := by
  obtain ⟨h6, h32, hall⟩ := extractCodeId_ok_canonical h
  exact extractCodeId_canonical_fixed h6 h32 hall

/-- Witness for C8 at `x = "a6f3hw7l"`. -/
theorem claim_C8_witness :
    Qr.extractCodeId ("a6f3hw7l".data) = .ok ("A6F3HW7L".data)
    ∧ Qr.extractCodeId ("A6F3HW7L".data) = .ok ("A6F3HW7L".data) :=
  ⟨by decide, claim_C8_normalize_idempotent ("a6f3hw7l".data) ("A6F3HW7L".data) (by decide)⟩

/-- Descending order on scan timestamps: the relation the listing's
`order('scanned_at', descending)` establishes between earlier and later
positions. -/
def DescOrd (a b : ScanEventsApi.ScanEventRow) : Prop :=
  b.scannedAt ≤ a.scannedAt

theorem mem_insertDesc {a e : ScanEventsApi.ScanEventRow}
    {l : List ScanEventsApi.ScanEventRow} :
    a ∈ ScanEventsApi.insertDesc e l ↔ a = e ∨ a ∈ l := by
  induction l with
  | nil => simp [ScanEventsApi.insertDesc]
  | cons x xs ih =>
    unfold ScanEventsApi.insertDesc
    by_cases h : e.scannedAt ≤ x.scannedAt
    · rw [if_pos h]
      simp only [List.mem_cons, ih]
      tauto
    · rw [if_neg h]
      simp only [List.mem_cons]

theorem pairwise_insertDesc {e : ScanEventsApi.ScanEventRow}
    {l : List ScanEventsApi.ScanEventRow}
    (h : l.Pairwise DescOrd) : (ScanEventsApi.insertDesc e l).Pairwise DescOrd := by
  induction l with
  | nil => simp [ScanEventsApi.insertDesc]
  | cons x xs ih =>
    rw [List.pairwise_cons] at h
    obtain ⟨hx, hxs⟩ := h
    unfold ScanEventsApi.insertDesc
    by_cases hc : e.scannedAt ≤ x.scannedAt
    · rw [if_pos hc, List.pairwise_cons]
      refine ⟨?_, ih hxs⟩
      intro b hb
      rcases mem_insertDesc.mp hb with rfl | hbl
      · exact hc
      · exact hx b hbl
    · rw [if_neg hc, List.pairwise_cons]
      have hxe : x.scannedAt ≤ e.scannedAt := Nat.le_of_lt (Nat.lt_of_not_le hc)
      refine ⟨?_, ?_⟩
      · intro b hb
        rcases List.mem_cons.mp hb with rfl | hbl
        · exact hxe
        · exact Nat.le_trans (hx b hbl) hxe
      · rw [List.pairwise_cons]
        exact ⟨hx, hxs⟩

theorem pairwise_sortDesc (l : List ScanEventsApi.ScanEventRow) :
    (ScanEventsApi.sortDesc l).Pairwise DescOrd := by
  induction l with
  | nil => simp [ScanEventsApi.sortDesc]
  | cons x xs ih => exact pairwise_insertDesc ih

theorem mem_sortDesc {a : ScanEventsApi.ScanEventRow}
    {l : List ScanEventsApi.ScanEventRow} :
    a ∈ ScanEventsApi.sortDesc l ↔ a ∈ l := by
  induction l with
  | nil => simp [ScanEventsApi.sortDesc]
  | cons x xs ih =>
    unfold ScanEventsApi.sortDesc
    rw [mem_insertDesc, List.mem_cons, ih]

/-- C6: the scan-list operation returns at most 50 entries, ordered
newest-first by `scanned_at`, and every returned entry is the transform —
including the join with its Code's fields — of one of the caller's own
events: no other user's event is listed. -/
theorem claim_C6_scan_list (events : List ScanEventsApi.ScanEventRow)
    (codes : CodesTable) (userId : List Char) :
    (ScanEventsApi.listScanEvents events codes userId).length ≤ 50
    ∧ (ScanEventsApi.listScanEvents events codes userId).Pairwise
        (fun a b => b.scannedAt ≤ a.scannedAt)
    ∧ ∀ t ∈ ScanEventsApi.listScanEvents events codes userId,
        ∃ e ∈ events, e.scannedByUserId = userId
          ∧ t = ScanEventsApi.transformEvent codes userId e := by
  refine ⟨?_, ?_, ?_⟩
  · unfold ScanEventsApi.listScanEvents
    rw [List.length_map]
    exact List.length_take_le _ _
  · unfold ScanEventsApi.listScanEvents
    rw [List.pairwise_map]
    exact List.Pairwise.sublist (List.take_sublist _ _)
      (pairwise_sortDesc (events.filter (fun e => e.scannedByUserId == userId)))
  · intro t ht
    unfold ScanEventsApi.listScanEvents at ht
    rw [List.mem_map] at ht
    obtain ⟨s, hs, rfl⟩ := ht
    have hs2 : s ∈ ScanEventsApi.sortDesc
        (events.filter (fun e => e.scannedByUserId == userId)) :=
      List.take_subset _ _ hs
    have hs3 := mem_sortDesc.mp hs2
    rw [List.mem_filter] at hs3
    exact ⟨s, hs3.1, eq_of_beq hs3.2, rfl⟩

/-- Witness for C6 on a two-user event log: only the caller's event is
listed, joined with its code. -/
theorem claim_C6_witness :
    (ScanEventsApi.listScanEvents
        [⟨"e1".data, "A6F3HW7L".data, "u1".data, 5, "A6F3HW7L".data⟩,
          ⟨"e2".data, "A6F3HW7L".data, "u2".data, 7, "A6F3HW7L".data⟩]
        [⟨"A6F3HW7L".data, "TMGS".data, "M".data, 2024, "u1".data, 1⟩]
        ("u1".data)).length ≤ 50
    ∧ ∃ e ∈ [⟨"e1".data, "A6F3HW7L".data, "u1".data, 5, "A6F3HW7L".data⟩,
          (⟨"e2".data, "A6F3HW7L".data, "u2".data, 7, "A6F3HW7L".data⟩ :
            ScanEventsApi.ScanEventRow)],
        e.scannedByUserId = ("u1".data)
          ∧ ScanEventsApi.transformEvent
              [⟨"A6F3HW7L".data, "TMGS".data, "M".data, 2024, "u1".data, 1⟩]
              ("u1".data)
              ⟨"e1".data, "A6F3HW7L".data, "u1".data, 5, "A6F3HW7L".data⟩
            = ScanEventsApi.transformEvent
              [⟨"A6F3HW7L".data, "TMGS".data, "M".data, 2024, "u1".data, 1⟩]
              ("u1".data) e :=
  ⟨(claim_C6_scan_list
      [⟨"e1".data, "A6F3HW7L".data, "u1".data, 5, "A6F3HW7L".data⟩,
        ⟨"e2".data, "A6F3HW7L".data, "u2".data, 7, "A6F3HW7L".data⟩]
      [⟨"A6F3HW7L".data, "TMGS".data, "M".data, 2024, "u1".data, 1⟩]
      ("u1".data)).1,
    (claim_C6_scan_list
      [⟨"e1".data, "A6F3HW7L".data, "u1".data, 5, "A6F3HW7L".data⟩,
        ⟨"e2".data, "A6F3HW7L".data, "u2".data, 7, "A6F3HW7L".data⟩]
      [⟨"A6F3HW7L".data, "TMGS".data, "M".data, 2024, "u1".data, 1⟩]
      ("u1".data)).2.2
      (ScanEventsApi.transformEvent
        [⟨"A6F3HW7L".data, "TMGS".data, "M".data, 2024, "u1".data, 1⟩]
        ("u1".data)
        ⟨"e1".data, "A6F3HW7L".data, "u1".data, 5, "A6F3HW7L".data⟩)
      (by decide)⟩

/-- In a table whose ids are pairwise distinguishing (the primary-key
invariant), the lookup by a member's id finds exactly that member. -/
theorem find?_id_of_mem_unique {table : CodesTable} {r : CodeRow}
    (hpk : ∀ r1 ∈ table, ∀ r2 ∈ table, r1.id = r2.id → r1 = r2)
    (hmem : r ∈ table) : table.find? (fun x => x.id == r.id) = some r := by
  induction table with
  | nil => cases hmem
  | cons a l ih =>
    by_cases ha : a.id = r.id
    · have har : a = r := hpk a (List.mem_cons_self a l) r hmem ha
      rw [List.find?_cons_of_pos _ (by simp [ha]), har]
    · rw [List.find?_cons_of_neg _ (by simp [ha])]
      have hrl : r ∈ l := by
        rcases List.mem_cons.mp hmem with h | h
        · exact absurd (by rw [h]) ha
        · exact h
      exact ih
        (fun r1 h1 r2 h2 => hpk r1 (List.mem_cons_of_mem a h1) r2 (List.mem_cons_of_mem a h2))
        hrl

/-- Rewriting every row's owner commutes with the lookup: `find?` only
inspects ids. -/
theorem find?_map_owner (table : CodesTable) (own key : List Char) :
    (table.map (fun r => { r with ownerUserId := own })).find? (fun x => x.id == key)
      = (table.find? (fun x => x.id == key)).map
          (fun r => { r with ownerUserId := own }) := by
  induction table with
  | nil => rfl
  | cons a l ih =>
    by_cases ha : a.id = key
    · rw [List.map_cons, List.find?_cons_of_pos _ (by simp [ha]),
        List.find?_cons_of_pos _ (by simp [ha])]
      rfl
    · rw [List.map_cons, List.find?_cons_of_neg _ (by simp [ha]),
        List.find?_cons_of_neg _ (by simp [ha]), ih]

/-- The public-lookup response never depends on the rows' owner field. -/
theorem lookupCode_owner_blind (table : CodesTable) (own cid : List Char) :
    CodesApi.lookupCode (table.map (fun r => { r with ownerUserId := own })) cid
      = CodesApi.lookupCode table cid := by
  unfold CodesApi.lookupCode
  rw [find?_map_owner]
  cases hfind : table.find? (fun x => x.id == upperList cid) with
  | none => rfl
  | some r => rfl

/-- C7: the public code lookup consults no caller identity (the model takes
none).  In any table satisfying the pipeline invariants — ids are primary
keys and canonical uppercase — every present id is answered with exactly
the five non-sensitive fields (`id`, `system`, `size`, `year`, `created`),
every absent id with 404, and the response is unchanged when every row's
owner identity is replaced, so the owner is never revealed. -/
theorem claim_C7_public_lookup (table : CodesTable)
    (hpk : ∀ r1 ∈ table, ∀ r2 ∈ table, r1.id = r2.id → r1 = r2)
    (hup : ∀ r ∈ table, upperList r.id = r.id) :
    (∀ r ∈ table, r.id ≠ [] →
      CodesApi.lookupCode table r.id
        = .ok r.id r.systemAcronym r.size r.year r.createdAt)
    ∧ (∀ cid, cid ≠ [] → (∀ r ∈ table, r.id ≠ upperList cid) →
      CodesApi.lookupCode table cid = .notFound)
    ∧ (∀ cid own,
      CodesApi.lookupCode (table.map (fun r => { r with ownerUserId := own })) cid
        = CodesApi.lookupCode table cid) := by
  refine ⟨?_, ?_, ?_⟩
  · intro r hmem hne
    unfold CodesApi.lookupCode
    rw [if_neg (by simp [List.isEmpty_iff, hne]), hup r hmem,
      find?_id_of_mem_unique hpk hmem]
  · intro cid hne habs
    unfold CodesApi.lookupCode
    rw [if_neg (by simp [List.isEmpty_iff, hne])]
    have hnone : table.find? (fun x => x.id == upperList cid) = none := by
      rw [List.find?_eq_none]
      intro x hx
      simp [habs x hx]
    rw [hnone]
  · intro cid own
    exact lookupCode_owner_blind table own cid

/-- Witness for C7 on a one-row table: the stored id is answered with its
public fields, an absent id with 404. -/
theorem claim_C7_witness :
    CodesApi.lookupCode
        [⟨"A6F3HW7L".data, "TMGS".data, "M".data, 2024, "u1".data, 5⟩]
        ("A6F3HW7L".data)
      = .ok ("A6F3HW7L".data) ("TMGS".data) ("M".data) 2024 5
    ∧ CodesApi.lookupCode
        [⟨"A6F3HW7L".data, "TMGS".data, "M".data, 2024, "u1".data, 5⟩]
        ("ZZZZZZ".data)
      = .notFound :=
  ⟨(claim_C7_public_lookup
      [⟨"A6F3HW7L".data, "TMGS".data, "M".data, 2024, "u1".data, 5⟩]
      (by decide) (by decide)).1
      ⟨"A6F3HW7L".data, "TMGS".data, "M".data, 2024, "u1".data, 5⟩
      (by decide) (by decide),
    (claim_C7_public_lookup
      [⟨"A6F3HW7L".data, "TMGS".data, "M".data, 2024, "u1".data, 5⟩]
      (by decide) (by decide)).2.1 ("ZZZZZZ".data) (by decide) (by decide)⟩

/-- C10: for every payload accepted by `extractCodeId`, `generateQRUrl`
with the default base URL succeeds and produces a URL from which
`extractCodeId` recovers exactly the identifier of the original payload —
so `extractCodeId (generateQRUrl x) = extractCodeId x`. -/
theorem claim_C10_roundtrip (x c : List Char) (h : Qr.extractCodeId x = .ok c) :
    Qr.generateQRUrl x Qr.defaultBaseUrl
      = .ok (Qr.defaultBaseUrl ++ "/s/".data ++ c)
    ∧ Qr.extractCodeId (Qr.defaultBaseUrl ++ "/s/".data ++ c) = .ok c := by
  obtain ⟨h6, h32, hall⟩ := extractCodeId_ok_canonical h
  constructor
  · unfold Qr.generateQRUrl
    rw [h]
    rfl
  · rw [show (Qr.defaultBaseUrl ++ "/s/".data ++ c : List Char)
        = "https://app.example.com/s/".data ++ c from rfl]
    exact extractCodeId_of_generated_url h6 h32 hall

/-- Witness for C10 at `x = "a6f3hw7l"`. -/
theorem claim_C10_witness :
    Qr.generateQRUrl ("a6f3hw7l".data) Qr.defaultBaseUrl
      = .ok (Qr.defaultBaseUrl ++ "/s/".data ++ ("A6F3HW7L".data))
    ∧ Qr.extractCodeId (Qr.defaultBaseUrl ++ "/s/".data ++ ("A6F3HW7L".data))
      = .ok ("A6F3HW7L".data) :=
  claim_C10_roundtrip ("a6f3hw7l".data) ("A6F3HW7L".data) (by decide)

/-- C9: the public code lookup is case-insensitive in the supplied id — two
path parameters with the same uppercased form receive identical responses,
because the route uppercases the parameter before querying. -/
theorem claim_C9_case_insensitive (table : CodesTable) (v w : List Char)
    (h : upperList v = upperList w) :
    CodesApi.lookupCode table v = CodesApi.lookupCode table w := by
  have hempty : v.isEmpty = w.isEmpty := by
    cases v <;> cases w <;> simp_all [upperList]
  unfold CodesApi.lookupCode
  rw [hempty, h]

/-- Witness for C9: a lowercase request sees the same stored row as the
canonical uppercase request. -/
theorem claim_C9_witness :
    CodesApi.lookupCode
        [⟨"A6F3HW7L".data, "TMGS".data, "M".data, 2024, "u1".data, 5⟩]
        ("a6f3hw7l".data)
      = CodesApi.lookupCode
        [⟨"A6F3HW7L".data, "TMGS".data, "M".data, 2024, "u1".data, 5⟩]
        ("A6F3HW7L".data) :=
  claim_C9_case_insensitive _ _ _ (by decide)
